import Mathlib

/-!
Shallow embedding of `src/pdf_util/cli.py` (the pdf-util command-line tool).

The only logic original to the repository is the page-range selector that the
`rotate` and `keep` commands run over the `--pages` string.  The loop is
duplicated verbatim in the source (rotate lines 106-129, keep lines 189-210),
so it is embedded once below (`parseTerm` / `parseParts` / `resolvePages`) and
both command models call it; `rotate` additionally has the
`pages is None or pages.lower() == "all"` branch (source lines 102-103), which
`keep` does not.

Python-level details modelled explicitly:
  * `str.split(sep)` for a one-character separator is `splitOnChar`;
  * `str.strip()` is `stripChars` (ASCII whitespace; the inputs under study
    contain no other whitespace);
  * `int(s)` is `pyIntChars` (optional surrounding whitespace, optional sign,
    decimal digits with Python's underscore digit grouping; Unicode digits are
    outside the model's scope);
  * `str.lower()` is `lowerChar` / `lowerChars` (ASCII case mapping);
  * `start, end = part.split("-")` raises `ValueError` unless the split has
    exactly two pieces, and that `ValueError` is caught by the same
    `except ValueError` handler as a failed `int(...)`, so both are a parse
    error carrying the offending (stripped) term;
  * sets of pages are `Finset ℤ` (Python ints are unbounded; indices can be
    negative before the bounds checks run).

The external pypdf library is out of the repository's scope; documents are
modelled as lists of abstract pages carrying an accumulated rotation, and
`page.rotate(angle)` adds the angle.  A command run is modelled as a pure
function to `CmdResult`: `CmdResult.ok out` means the output file is written
with pages `out`, `CmdResult.err 1` means the process exits with status 1 and
no output file is ever opened or written.
-/

/-- Python `str.strip()` whitespace test, restricted to ASCII whitespace. -/
def isPySpace (c : Char) : Bool :=
  c.toNat = 32 || c.toNat = 9 || c.toNat = 10 || c.toNat = 13 ||
    c.toNat = 11 || c.toNat = 12

/-- Model of Python `str.strip()` on the character list of a string. -/
def stripChars (l : List Char) : List Char :=
  ((l.dropWhile isPySpace).reverse.dropWhile isPySpace).reverse

/-- Model of Python `str.lower()` on one character (ASCII case mapping). -/
def lowerChar (c : Char) : Char :=
  if 65 ≤ c.toNat ∧ c.toNat ≤ 90 then Char.ofNat (c.toNat + 32) else c

/-- Model of Python `str.lower()` on the character list of a string. -/
def lowerChars (l : List Char) : List Char :=
  l.map lowerChar

/-- Model of Python `str.split(sep)` for a one-character separator:
`""` splits to `[""]`, and consecutive separators yield empty pieces. -/
def splitOnChar (sep : Char) : List Char → List (List Char)
  | [] => [[]]
  | c :: rest =>
    if c = sep then [] :: splitOnChar sep rest
    else
      match splitOnChar sep rest with
      | [] => [[c]]
      | h :: t => (c :: h) :: t

/-- Decimal digit value of a character, `none` for a non-digit. -/
def digitVal (c : Char) : Option Nat :=
  if 48 ≤ c.toNat ∧ c.toNat ≤ 57 then some (c.toNat - 48) else none

/-- After the leading digit, Python `int` accepts further digits with single
underscores allowed only between digits. -/
def parseDigitsAux : List Char → Nat → Option Nat
  | [], acc => some acc
  | c :: rest, acc =>
    if c = '_' then
      match rest with
      | [] => none
      | c2 :: rest2 =>
        match digitVal c2 with
        | some d => parseDigitsAux rest2 (10 * acc + d)
        | none => none
    else
      match digitVal c with
      | some d => parseDigitsAux rest (10 * acc + d)
      | none => none

/-- A nonempty run of decimal digits (Python underscore grouping allowed). -/
def parseDigits : List Char → Option Nat
  | [] => none
  | c :: rest =>
    match digitVal c with
    | some d => parseDigitsAux rest d
    | none => none

/-- Model of Python `int(s)`: strip whitespace, optional `+`/`-` sign,
decimal digits; `none` models the `ValueError` raised on anything else. -/
def pyIntChars (l : List Char) : Option Int :=
  match stripChars l with
  | [] => none
  | c :: rest =>
    if c = '+' then (parseDigits rest).map (fun n => (n : Int))
    else if c = '-' then (parseDigits rest).map (fun n => -(n : Int))
    else (parseDigits (c :: rest)).map (fun n => (n : Int))

/-- The two page-range failure modes of the source: a `ValueError` caught by
`except ValueError` (parse error) and the explicit out-of-bounds report.
Both carry the offending (stripped) term as the source's messages do. -/
inductive RangeError where
  | parseError (term : String)
  | outOfBoundsError (term : String)
  deriving DecidableEq

deriving instance DecidableEq for Except

/-- One term of the `--pages` expression, exactly as both commands process it:
if the term contains a hyphen it is split into exactly two pieces, each piece
is parsed with `int(piece.strip())` and decremented, the bounds check is
`start_idx < 0 or end_idx >= total_pages`, and the term contributes
`range(start_idx, end_idx + 1)`; otherwise the term is a single page,
parsed, decremented, and checked against `[0, total_pages)`. -/
def parseTerm (total : Nat) (part : List Char) : Except RangeError (Finset ℤ) :=
  if '-' ∈ part then
    match splitOnChar '-' part with
    | [s, e] =>
      match pyIntChars s, pyIntChars e with
      | some sv, some ev =>
        let start_idx : ℤ := sv - 1
        let end_idx : ℤ := ev - 1
        if start_idx < 0 ∨ end_idx ≥ (total : ℤ) then
          .error (.outOfBoundsError (String.mk part))
        else
          .ok (Finset.Ico start_idx (end_idx + 1))
      | _, _ => .error (.parseError (String.mk part))
    | _ => .error (.parseError (String.mk part))
  else
    match pyIntChars part with
    | some v =>
      let page_num : ℤ := v - 1
      if page_num < 0 ∨ page_num ≥ (total : ℤ) then
        .error (.outOfBoundsError (String.mk part))
      else
        .ok {page_num}
    | none => .error (.parseError (String.mk part))

/-- The `for part in pages.split(",")` loop: strip each piece, process it as a
term, accumulate the union; the first failure aborts the command. -/
def parseParts (total : Nat) : List (List Char) → Except RangeError (Finset ℤ)
  | [] => .ok ∅
  | p :: rest =>
    match parseTerm total (stripChars p) with
    | .error e => .error e
    | .ok s =>
      match parseParts total rest with
      | .error e => .error e
      | .ok r => .ok (s ∪ r)

/-- Resolution of a whole comma-separated `--pages` expression. -/
def resolvePages (total : Nat) (pages : List Char) : Except RangeError (Finset ℤ) :=
  parseParts total (splitOnChar ',' pages)

/-- Page selection of the `rotate` command (source lines 100-129): an absent
`--pages` or one equal to `"all"` case-insensitively selects
`set(range(total_pages))`; anything else goes through the term loop. -/
def rotateResolve (total : Nat) (pages : Option String) : Except RangeError (Finset ℤ) :=
  match pages with
  | none => .ok (Finset.Ico 0 (total : ℤ))
  | some s =>
    if lowerChars s.data = "all".data then .ok (Finset.Ico 0 (total : ℤ))
    else resolvePages total s.data

/-- Page selection of the `keep` command (source lines 187-210): `--pages` is
required and goes straight into the term loop, with no `"all"` special case. -/
def keepResolve (total : Nat) (pages : String) : Except RangeError (Finset ℤ) :=
  resolvePages total pages.data

/-- Abstract model of a pypdf page: an identity plus accumulated rotation. -/
structure Page where
  rotation : ℤ
  content : ℕ
  deriving DecidableEq, Inhabited

/-- `page.rotate(angle)` of the external library, modelled abstractly as
accumulating the clockwise angle. -/
def rotatePage (angle : ℤ) (p : Page) : Page :=
  { p with rotation := p.rotation + angle }

/-- The `for i, page in enumerate(reader.pages)` loop of `rotate`
(source lines 136-140), starting the index at `k`. -/
def rotateOutputAux (sel : Finset ℤ) (angle : ℤ) : Nat → List Page → List Page
  | _, [] => []
  | k, p :: rest =>
    (if (k : ℤ) ∈ sel then rotatePage angle p else p) ::
      rotateOutputAux sel angle (k + 1) rest

/-- Pages written by `rotate`: every input page in original order, the
selected ones rotated. -/
def rotateOutput (doc : List Page) (sel : Finset ℤ) (angle : ℤ) : List Page :=
  rotateOutputAux sel angle 0 doc

/-- Pages written by `keep` (source lines 220-222): the resolved set iterated
in ascending order via `sorted(pages_to_keep)`, indexing into the input. -/
def keepOutput (doc : List Page) (sel : Finset ℤ) : List Page :=
  (sel.sort (· ≤ ·)).map (fun i => doc.getD i.toNat default)

/-- Outcome of one command invocation: `ok out` writes the output file with
pages `out` and exits 0; `err 1` exits with status 1 before any output file
is opened or written. -/
inductive CmdResult where
  | ok (out : List Page)
  | err (code : Nat)
  deriving DecidableEq

/-- The `rotate` command on an already-opened document: the angle must be one
of 90/180/270 (checked before the document is read), then the page expression
is resolved against `len(reader.pages)`; any resolution failure exits 1
before the output file is opened, otherwise all pages are written with the
selected ones rotated. -/
def rotateCmd (doc : List Page) (angle : ℤ) (pages : Option String) : CmdResult :=
  if angle = 90 ∨ angle = 180 ∨ angle = 270 then
    match rotateResolve doc.length pages with
    | .error _ => .err 1
    | .ok sel => .ok (rotateOutput doc sel angle)
  else .err 1

/-- The `keep` command on an already-opened document: the required page
expression is resolved against `len(reader.pages)`; a resolution failure or
an empty resolved set (source lines 212-214) exits 1 before the output file
is opened, otherwise exactly the selected pages are written in ascending
order. -/
def keepCmd (doc : List Page) (pages : String) : CmdResult :=
  match keepResolve doc.length pages with
  | .error _ => .err 1
  | .ok sel =>
    if sel = ∅ then .err 1
    else .ok (keepOutput doc sel)

/-- Little-endian decimal digits of `n`, with explicit fuel so that the
definition is structural and kernel-reducible. -/
def toDigitsLE : Nat → Nat → List Nat
  | 0, _ => []
  | _ + 1, 0 => []
  | fuel + 1, n + 1 => (n + 1) % 10 :: toDigitsLE fuel ((n + 1) / 10)

/-- The decimal digit characters. -/
def digitChar : Nat → Char
  | 0 => '0' | 1 => '1' | 2 => '2' | 3 => '3' | 4 => '4'
  | 5 => '5' | 6 => '6' | 7 => '7' | 8 => '8' | 9 => '9'
  | _ => '?'

/-- Model of Python `str(n)` for a natural number: its decimal literal. -/
def natStr (n : Nat) : List Char :=
  if n = 0 then ['0'] else ((toDigitsLE n n).reverse.map digitChar)

/-- Little-endian decimal evaluation, inverse of `toDigitsLE`. -/
def ofDigitsLE : List Nat → Nat
  | [] => 0
  | d :: t => d + 10 * ofDigitsLE t

/-- A one-page example document. -/
def exDoc1 : List Page := [⟨0, 1⟩]

/-- A three-page example document. -/
def exDoc3 : List Page := [⟨0, 1⟩, ⟨0, 2⟩, ⟨0, 3⟩]

/-- A five-page example document. -/
def exDoc5 : List Page := [⟨0, 1⟩, ⟨0, 2⟩, ⟨0, 3⟩, ⟨0, 4⟩, ⟨0, 5⟩]

example : natStr 123 = ['1', '2', '3'] := by decide
example : pyIntChars "1_2".data = some 12 := by decide
example : pyIntChars "-4".data = some (-4) := by decide
example : splitOnChar ',' "2,4-6,9".data = ["2".data, "4-6".data, "9".data] := by decide
example : keepResolve 3 "all" = .error (.parseError "all") := by decide
example : keepResolve 1 "3-2" = .error (.outOfBoundsError "3-2") := by decide
example : keepResolve 5 "-3" = .error (.parseError "-3") := by decide
example : keepResolve 5 "x" = .error (.parseError "x") := by decide

theorem dropWhile_eq_self_of_none {p : Char → Bool} {l : List Char}
    (h : ∀ c ∈ l, p c = false) : l.dropWhile p = l := by
  cases l with
  | nil => rfl
  | cons c t => simp [List.dropWhile_cons, h c (List.mem_cons_self c t)]

theorem stripChars_eq_self {l : List Char} (h : ∀ c ∈ l, isPySpace c = false) :
    stripChars l = l := by
  unfold stripChars
  rw [dropWhile_eq_self_of_none h, dropWhile_eq_self_of_none, List.reverse_reverse]
  intro c hc
  exact h c (List.mem_reverse.mp hc)

theorem splitOnChar_ne_nil (sep : Char) (l : List Char) : splitOnChar sep l ≠ [] := by
  induction l with
  | nil => simp [splitOnChar]
  | cons c t ih =>
    simp only [splitOnChar]
    split
    · simp
    · split
      · simp
      · simp

theorem splitOnChar_no_sep {sep : Char} {l : List Char} (h : sep ∉ l) :
    splitOnChar sep l = [l] := by
  induction l with
  | nil => rfl
  | cons c t ih =>
    have hc : ¬ c = sep := fun hh => h (hh ▸ List.mem_cons_self c t)
    have ht : sep ∉ t := fun hh => h (List.mem_cons_of_mem _ hh)
    simp only [splitOnChar, if_neg hc, ih ht]

theorem splitOnChar_append (sep : Char) (a b : List Char) :
    splitOnChar sep (a ++ sep :: b) = splitOnChar sep a ++ splitOnChar sep b := by
  induction a with
  | nil => simp [splitOnChar]
  | cons c t ih =>
    obtain ⟨h0, t0, ht⟩ := List.exists_cons_of_ne_nil (splitOnChar_ne_nil sep t)
    by_cases hc : c = sep
    · subst hc
      simp only [List.cons_append, splitOnChar, if_pos rfl, List.append_eq_has_append]
      rw [ih]
      rfl
    · simp only [List.cons_append, splitOnChar, if_neg hc, List.append_eq_has_append]
      rw [ih, ht]
      rfl

theorem digitVal_digitChar : ∀ d, d < 10 → digitVal (digitChar d) = some d := by decide

theorem digitChar_ne_hyphen : ∀ d, d < 10 → digitChar d ≠ '-' := by decide

theorem digitChar_ne_comma : ∀ d, d < 10 → digitChar d ≠ ',' := by decide

theorem digitChar_ne_plus : ∀ d, d < 10 → digitChar d ≠ '+' := by decide

theorem digitChar_ne_underscore : ∀ d, d < 10 → digitChar d ≠ '_' := by decide

theorem digitChar_not_space : ∀ d, d < 10 → isPySpace (digitChar d) = false := by decide

theorem lowerChar_digitChar : ∀ d, d < 10 → lowerChar (digitChar d) = digitChar d := by
  decide

theorem digitChar_ne_a : ∀ d, d < 10 → digitChar d ≠ 'a' := by decide

theorem ofDigitsLE_toDigitsLE : ∀ fuel n, n ≤ fuel →
    ofDigitsLE (toDigitsLE fuel n) = n := by
  intro fuel
  induction fuel with
  | zero =>
    intro n h
    interval_cases n
    rfl
  | succ f ih =>
    intro n h
    cases n with
    | zero => rfl
    | succ m =>
      have h2 : (m + 1) / 10 < m + 1 := Nat.div_lt_self (Nat.succ_pos m) (by norm_num)
      have hdiv : (m + 1) / 10 ≤ f := by omega
      simp only [toDigitsLE, ofDigitsLE]
      rw [ih _ hdiv]
      exact Nat.mod_add_div (m + 1) 10

theorem toDigitsLE_lt : ∀ fuel n d, d ∈ toDigitsLE fuel n → d < 10 := by
  intro fuel
  induction fuel with
  | zero =>
    intro n d h
    simp [toDigitsLE] at h
  | succ f ih =>
    intro n d h
    cases n with
    | zero => simp [toDigitsLE] at h
    | succ m =>
      simp only [toDigitsLE, List.mem_cons] at h
      rcases h with h | h
      · subst h
        exact Nat.mod_lt _ (by norm_num)
      · exact ih _ _ h

theorem natStr_mem {n : Nat} {c : Char} (h : c ∈ natStr n) :
    ∃ d, d < 10 ∧ c = digitChar d := by
  unfold natStr at h
  split at h
  · rcases List.mem_singleton.mp h with rfl
    exact ⟨0, by norm_num, rfl⟩
  · rw [List.mem_map] at h
    obtain ⟨d, hd, rfl⟩ := h
    exact ⟨d, toDigitsLE_lt _ _ _ (List.mem_reverse.mp hd), rfl⟩

theorem natStr_ne_nil (n : Nat) : natStr n ≠ [] := by
  unfold natStr
  split
  · simp
  · rename_i hn
    cases n with
    | zero => exact absurd rfl hn
    | succ m => simp [toDigitsLE]

theorem natStr_no_hyphen (n : Nat) : '-' ∉ natStr n := by
  intro h
  obtain ⟨d, hd, hc⟩ := natStr_mem h
  exact digitChar_ne_hyphen d hd hc.symm

theorem natStr_no_comma (n : Nat) : ',' ∉ natStr n := by
  intro h
  obtain ⟨d, hd, hc⟩ := natStr_mem h
  exact digitChar_ne_comma d hd hc.symm

theorem natStr_not_space {n : Nat} : ∀ c ∈ natStr n, isPySpace c = false := by
  intro c hc
  obtain ⟨d, hd, rfl⟩ := natStr_mem hc
  exact digitChar_not_space d hd

theorem foldl_reverse_ofDigitsLE : ∀ (L : List Nat) (acc : Nat),
    L.reverse.foldl (fun a d => 10 * a + d) acc =
      acc * 10 ^ L.length + ofDigitsLE L := by
  intro L
  induction L with
  | nil =>
    intro acc
    simp [ofDigitsLE]
  | cons d t ih =>
    intro acc
    simp only [List.reverse_cons, List.foldl_append, List.foldl_cons, List.foldl_nil,
      ih, ofDigitsLE, List.length_cons]
    ring

theorem parseDigitsAux_cons_digit {c : Char} {d : Nat} (h1 : c ≠ '_')
    (h2 : digitVal c = some d) (rest : List Char) (acc : Nat) :
    parseDigitsAux (c :: rest) acc = parseDigitsAux rest (10 * acc + d) := by
  rw [parseDigitsAux.eq_def]
  simp only [if_neg h1, h2]

theorem parseDigitsAux_digits : ∀ (t : List Nat), (∀ d ∈ t, d < 10) → ∀ acc,
    parseDigitsAux (t.map digitChar) acc =
      some (t.foldl (fun a d => 10 * a + d) acc) := by
  intro t
  induction t with
  | nil =>
    intro _ acc
    rfl
  | cons d t2 ih =>
    intro h acc
    have hd : d < 10 := h d (List.mem_cons_self d t2)
    rw [List.map_cons,
      parseDigitsAux_cons_digit (digitChar_ne_underscore d hd) (digitVal_digitChar d hd),
      List.foldl_cons]
    exact ih (fun x hx => h x (List.mem_cons_of_mem _ hx)) _

theorem parseDigits_digitList {L : List Nat} (hlt : ∀ d ∈ L, d < 10)
    (hne : L.reverse ≠ []) :
    parseDigits (L.reverse.map digitChar) = some (ofDigitsLE L) := by
  obtain ⟨d, t, ht⟩ := List.exists_cons_of_ne_nil hne
  have hd : d < 10 := hlt d (by rw [← List.mem_reverse, ht]; exact List.mem_cons_self _ _)
  have hlt2 : ∀ x ∈ t, x < 10 := fun x hx =>
    hlt x (by rw [← List.mem_reverse, ht]; exact List.mem_cons_of_mem _ hx)
  rw [ht, List.map_cons]
  simp only [parseDigits, digitVal_digitChar d hd, parseDigitsAux_digits t hlt2 d]
  have hfold : t.foldl (fun a x => 10 * a + x) d =
      L.reverse.foldl (fun a x => 10 * a + x) 0 := by
    rw [ht]
    simp
  rw [hfold, foldl_reverse_ofDigitsLE]
  simp

theorem parseDigits_natStr (n : Nat) : parseDigits (natStr n) = some n := by
  unfold natStr
  split
  · rename_i h
    subst h
    rfl
  · rename_i hn
    have hne : (toDigitsLE n n).reverse ≠ [] := by
      cases n with
      | zero => exact absurd rfl hn
      | succ m => simp [toDigitsLE]
    rw [parseDigits_digitList (fun d hd => toDigitsLE_lt _ _ _ hd) hne,
      ofDigitsLE_toDigitsLE n n le_rfl]

theorem pyIntChars_natStr (n : Nat) : pyIntChars (natStr n) = some (n : ℤ) := by
  obtain ⟨c, t, hct⟩ := List.exists_cons_of_ne_nil (natStr_ne_nil n)
  obtain ⟨d, hd, hc⟩ := natStr_mem (c := c) (by rw [hct]; exact List.mem_cons_self _ _)
  have hstrip : stripChars (natStr n) = c :: t := by
    rw [stripChars_eq_self (natStr_not_space (n := n)), hct]
  simp only [pyIntChars, hstrip]
  rw [hc, if_neg (digitChar_ne_plus d hd), if_neg (digitChar_ne_hyphen d hd), ← hc,
    ← hct, parseDigits_natStr]
  rfl

theorem parseTerm_no_hyphen {part : List Char} (hm : '-' ∉ part) (total : Nat) :
    parseTerm total part =
      match pyIntChars part with
      | some v =>
        if v - 1 < 0 ∨ v - 1 ≥ (total : ℤ) then
          .error (.outOfBoundsError (String.mk part))
        else
          .ok {v - 1}
      | none => .error (.parseError (String.mk part)) := by
  unfold parseTerm
  rw [if_neg hm]

theorem parseTerm_single_ok {part : List Char} {v : ℤ} {total : Nat} (hm : '-' ∉ part)
    (hv : pyIntChars part = some v) (hok : ¬ (v - 1 < 0 ∨ v - 1 ≥ (total : ℤ))) :
    parseTerm total part = .ok {v - 1} := by
  rw [parseTerm_no_hyphen hm, hv]
  exact if_neg hok

theorem parseTerm_single_oob {part : List Char} {v : ℤ} {total : Nat} (hm : '-' ∉ part)
    (hv : pyIntChars part = some v) (hbad : v - 1 < 0 ∨ v - 1 ≥ (total : ℤ)) :
    parseTerm total part = .error (.outOfBoundsError (String.mk part)) := by
  rw [parseTerm_no_hyphen hm, hv]
  exact if_pos hbad

theorem parseTerm_single_none {part : List Char} {total : Nat} (hm : '-' ∉ part)
    (hv : pyIntChars part = none) :
    parseTerm total part = .error (.parseError (String.mk part)) := by
  rw [parseTerm_no_hyphen hm, hv]

theorem parseTerm_hyphen {part s e : List Char} (hm : '-' ∈ part)
    (hsplit : splitOnChar '-' part = [s, e]) (total : Nat) :
    parseTerm total part =
      match pyIntChars s, pyIntChars e with
      | some sv, some ev =>
        if sv - 1 < 0 ∨ ev - 1 ≥ (total : ℤ) then
          .error (.outOfBoundsError (String.mk part))
        else
          .ok (Finset.Ico (sv - 1) (ev - 1 + 1))
      | _, _ => .error (.parseError (String.mk part)) := by
  unfold parseTerm
  rw [if_pos hm, hsplit]

theorem parseTerm_range_ok {part s e : List Char} {sv ev : ℤ} {total : Nat}
    (hm : '-' ∈ part) (hsplit : splitOnChar '-' part = [s, e])
    (hs : pyIntChars s = some sv) (he : pyIntChars e = some ev)
    (hok : ¬ (sv - 1 < 0 ∨ ev - 1 ≥ (total : ℤ))) :
    parseTerm total part = .ok (Finset.Ico (sv - 1) (ev - 1 + 1)) := by
  rw [parseTerm_hyphen hm hsplit, hs, he]
  exact if_neg hok

theorem parseTerm_range_oob {part s e : List Char} {sv ev : ℤ} {total : Nat}
    (hm : '-' ∈ part) (hsplit : splitOnChar '-' part = [s, e])
    (hs : pyIntChars s = some sv) (he : pyIntChars e = some ev)
    (hbad : sv - 1 < 0 ∨ ev - 1 ≥ (total : ℤ)) :
    parseTerm total part = .error (.outOfBoundsError (String.mk part)) := by
  rw [parseTerm_hyphen hm hsplit, hs, he]
  exact if_pos hbad

theorem parseTerm_range_parse_error {part s e : List Char} {total : Nat}
    (hm : '-' ∈ part) (hsplit : splitOnChar '-' part = [s, e])
    (hs : pyIntChars s = none) :
    parseTerm total part = .error (.parseError (String.mk part)) := by
  rw [parseTerm_hyphen hm hsplit, hs]

theorem parseParts_cons_ok {total : Nat} {p : List Char} {rest : List (List Char)}
    {s r : Finset ℤ} (hp : parseTerm total (stripChars p) = .ok s)
    (hr : parseParts total rest = .ok r) :
    parseParts total (p :: rest) = .ok (s ∪ r) := by
  simp only [parseParts, hp, hr]

theorem parseParts_cons_err {total : Nat} {p : List Char} {rest : List (List Char)}
    {e : RangeError} (hp : parseTerm total (stripChars p) = .error e) :
    parseParts total (p :: rest) = .error e := by
  simp only [parseParts, hp]

theorem parseParts_cons_err2 {total : Nat} {p : List Char} {rest : List (List Char)}
    {s : Finset ℤ} {e : RangeError} (hp : parseTerm total (stripChars p) = .ok s)
    (hr : parseParts total rest = .error e) :
    parseParts total (p :: rest) = .error e := by
  simp only [parseParts, hp, hr]

theorem parseParts_append_ok {total : Nat} : ∀ {P1 P2 : List (List Char)} {s1 s2 : Finset ℤ},
    parseParts total P1 = .ok s1 → parseParts total P2 = .ok s2 →
    parseParts total (P1 ++ P2) = .ok (s1 ∪ s2) := by
  intro P1
  induction P1 with
  | nil =>
    intro P2 s1 s2 h1 h2
    have hs1 : s1 = ∅ := (Except.ok.inj h1).symm
    subst hs1
    rw [List.nil_append, Finset.empty_union]
    exact h2
  | cons p P1x ih =>
    intro P2 s1 s2 h1 h2
    rcases hterm : parseTerm total (stripChars p) with e | s
    · rw [parseParts_cons_err hterm] at h1
      cases h1
    · rcases hrest : parseParts total P1x with e | r
      · rw [parseParts_cons_err2 hterm hrest] at h1
        cases h1
      · rw [parseParts_cons_ok hterm hrest] at h1
        have hs1 : s ∪ r = s1 := Except.ok.inj h1
        subst hs1
        rw [List.cons_append, parseParts_cons_ok hterm (ih hrest h2), Finset.union_assoc]

theorem parseTerm_bounds {total : Nat} {part : List Char} {s : Finset ℤ}
    (h : parseTerm total part = .ok s) : ∀ x ∈ s, 0 ≤ x ∧ x < (total : ℤ) := by
  intro x hx
  unfold parseTerm at h
  dsimp only at h
  split at h
  · split at h
    · split at h
      · split at h
        · cases h
        · rename_i hbound
          have hs : _ = s := Except.ok.inj h
          subst hs
          rw [Finset.mem_Ico] at hx
          push_neg at hbound
          omega
      · cases h
    · cases h
  · split at h
    · split at h
      · cases h
      · rename_i hbound
        have hs : _ = s := Except.ok.inj h
        subst hs
        rw [Finset.mem_singleton] at hx
        push_neg at hbound
        omega
    · cases h

theorem parseParts_bounds {total : Nat} : ∀ {parts : List (List Char)} {s : Finset ℤ},
    parseParts total parts = .ok s → ∀ x ∈ s, 0 ≤ x ∧ x < (total : ℤ) := by
  intro parts
  induction parts with
  | nil =>
    intro s h x hx
    have hs : (∅ : Finset ℤ) = s := Except.ok.inj h
    subst hs
    simp at hx
  | cons p rest ih =>
    intro s h x hx
    rcases hterm : parseTerm total (stripChars p) with e | s1
    · rw [parseParts_cons_err hterm] at h
      cases h
    · rcases hrest : parseParts total rest with e | r
      · rw [parseParts_cons_err2 hterm hrest] at h
        cases h
      · rw [parseParts_cons_ok hterm hrest] at h
        have hs : s1 ∪ r = s := Except.ok.inj h
        subst hs
        rw [Finset.mem_union] at hx
        rcases hx with hx | hx
        · exact parseTerm_bounds hterm x hx
        · exact ih hrest x hx

theorem resolvePages_bounds {total : Nat} {pages : List Char} {s : Finset ℤ}
    (h : resolvePages total pages = .ok s) : ∀ x ∈ s, 0 ≤ x ∧ x < (total : ℤ) :=
  parseParts_bounds h

theorem rotateResolve_bounds {total : Nat} {pages : Option String} {s : Finset ℤ}
    (h : rotateResolve total pages = .ok s) : ∀ x ∈ s, 0 ≤ x ∧ x < (total : ℤ) := by
  unfold rotateResolve at h
  split at h
  · have hs : Finset.Ico 0 (total : ℤ) = s := Except.ok.inj h
    subst hs
    intro x hx
    rw [Finset.mem_Ico] at hx
    exact hx
  · split at h
    · have hs : Finset.Ico 0 (total : ℤ) = s := Except.ok.inj h
      subst hs
      intro x hx
      rw [Finset.mem_Ico] at hx
      exact hx
    · exact resolvePages_bounds h

theorem resolvePages_single {total : Nat} {l : List Char} (hc : ',' ∉ l) :
    resolvePages total l = parseParts total [l] := by
  rw [resolvePages, splitOnChar_no_sep hc]

theorem parseParts_nil {total : Nat} : parseParts total [] = .ok ∅ := rfl

theorem parseParts_single_ok {total : Nat} {l : List Char} {s : Finset ℤ}
    (h : parseTerm total (stripChars l) = .ok s) :
    parseParts total [l] = .ok s := by
  rw [parseParts_cons_ok h parseParts_nil, Finset.union_empty]

theorem parseParts_single_err {total : Nat} {l : List Char} {e : RangeError}
    (h : parseTerm total (stripChars l) = .error e) :
    parseParts total [l] = .error e :=
  parseParts_cons_err h

theorem rotateResolve_not_all {total : Nat} {s : String}
    (h : lowerChars s.data ≠ "all".data) :
    rotateResolve total (some s) = resolvePages total s.data := by
  unfold rotateResolve
  dsimp only
  rw [if_neg h]

theorem rotateOutputAux_length (sel : Finset ℤ) (angle : ℤ) :
    ∀ (doc : List Page) (k : Nat), (rotateOutputAux sel angle k doc).length = doc.length := by
  intro doc
  induction doc with
  | nil =>
    intro k
    rfl
  | cons p rest ih =>
    intro k
    simp only [rotateOutputAux, List.length_cons, ih]

theorem rotateOutputAux_getElem (sel : Finset ℤ) (angle : ℤ) :
    ∀ (doc : List Page) (k i : Nat),
      (rotateOutputAux sel angle k doc)[i]? =
        (doc[i]?).map (fun p => if ((k + i : Nat) : ℤ) ∈ sel then rotatePage angle p else p) := by
  intro doc
  induction doc with
  | nil =>
    intro k i
    simp [rotateOutputAux]
  | cons p rest ih =>
    intro k i
    cases i with
    | zero =>
      simp [rotateOutputAux]
    | succ j =>
      simp only [rotateOutputAux, List.getElem?_cons_succ]
      rw [ih (k + 1) j]
      have hk : k + 1 + j = k + (j + 1) := by omega
      rw [hk]

theorem rotateOutputAux_empty (angle : ℤ) :
    ∀ (doc : List Page) (k : Nat), rotateOutputAux ∅ angle k doc = doc := by
  intro doc
  induction doc with
  | nil =>
    intro k
    rfl
  | cons p rest ih =>
    intro k
    simp [rotateOutputAux, ih]

theorem lower_space {c : Char} (hs : isPySpace c = true) : lowerChar c = c := by
  unfold isPySpace at hs
  simp only [Bool.or_eq_true, decide_eq_true_eq] at hs
  unfold lowerChar
  rw [if_neg (by omega)]

theorem digitVal_some_lower {c : Char} {d : Nat} (h : digitVal c = some d) :
    lowerChar c = c := by
  unfold digitVal at h
  split at h
  · rename_i hr
    unfold lowerChar
    rw [if_neg (by omega)]
  · cases h

theorem rangeTerm_mem {a b : Nat} {c : Char} (h : c ∈ natStr a ++ '-' :: natStr b) :
    (∃ d, d < 10 ∧ c = digitChar d) ∨ c = '-' := by
  rw [List.mem_append, List.mem_cons] at h
  rcases h with h | h | h
  · exact .inl (natStr_mem h)
  · exact .inr h
  · exact .inl (natStr_mem h)

theorem rangeTerm_no_comma (a b : Nat) : ',' ∉ natStr a ++ '-' :: natStr b := by
  intro hm
  rcases rangeTerm_mem hm with ⟨d, hd, hc⟩ | hc
  · exact digitChar_ne_comma d hd hc.symm
  · exact absurd hc (by decide)

theorem rangeTerm_not_space {a b : Nat} :
    ∀ c ∈ natStr a ++ '-' :: natStr b, isPySpace c = false := by
  intro c hc
  rcases rangeTerm_mem hc with ⟨d, hd, rfl⟩ | rfl
  · exact digitChar_not_space d hd
  · decide

theorem rangeTerm_split (a b : Nat) :
    splitOnChar '-' (natStr a ++ '-' :: natStr b) = [natStr a, natStr b] := by
  rw [splitOnChar_append, splitOnChar_no_sep (natStr_no_hyphen a),
    splitOnChar_no_sep (natStr_no_hyphen b)]
  rfl

theorem rangeTerm_hyphen_mem (a b : Nat) : '-' ∈ natStr a ++ '-' :: natStr b := by
  rw [List.mem_append, List.mem_cons]
  exact .inr (.inl rfl)

theorem parseTerm_natRange {total a b : Nat} (ha : 1 ≤ a) (hb : b ≤ total) :
    parseTerm total (natStr a ++ '-' :: natStr b) =
      .ok (Finset.Ico ((a : ℤ) - 1) ((b : ℤ) - 1 + 1)) := by
  exact parseTerm_range_ok (rangeTerm_hyphen_mem a b) (rangeTerm_split a b)
    (pyIntChars_natStr a) (pyIntChars_natStr b) (by omega)

theorem resolvePages_natRange {total a b : Nat} (ha : 1 ≤ a) (hb : b ≤ total) :
    resolvePages total (natStr a ++ '-' :: natStr b) =
      .ok (Finset.Ico ((a : ℤ) - 1) ((b : ℤ) - 1 + 1)) := by
  rw [resolvePages_single (rangeTerm_no_comma a b)]
  refine parseParts_single_ok ?_
  rw [stripChars_eq_self rangeTerm_not_space]
  exact parseTerm_natRange ha hb

theorem parseTerm_natSingle {total n : Nat} (h1 : 1 ≤ n) (h2 : n ≤ total) :
    parseTerm total (natStr n) = .ok {(n : ℤ) - 1} := by
  exact parseTerm_single_ok (natStr_no_hyphen n) (pyIntChars_natStr n) (by omega)

theorem resolvePages_natSingle {total n : Nat} (h1 : 1 ≤ n) (h2 : n ≤ total) :
    resolvePages total (natStr n) = .ok {(n : ℤ) - 1} := by
  rw [resolvePages_single (natStr_no_comma n)]
  refine parseParts_single_ok ?_
  rw [stripChars_eq_self natStr_not_space]
  exact parseTerm_natSingle h1 h2

theorem parseTerm_natSingle_oob_high (total : Nat) :
    parseTerm total (natStr (total + 1)) =
      .error (.outOfBoundsError (String.mk (natStr (total + 1)))) := by
  refine parseTerm_single_oob (natStr_no_hyphen _) (pyIntChars_natStr _) ?_
  right
  push_cast
  omega

theorem resolvePages_natSingle_oob_high (total : Nat) :
    resolvePages total (natStr (total + 1)) =
      .error (.outOfBoundsError (String.mk (natStr (total + 1)))) := by
  rw [resolvePages_single (natStr_no_comma _)]
  refine parseParts_single_err ?_
  rw [stripChars_eq_self natStr_not_space]
  exact parseTerm_natSingle_oob_high total

theorem parseTerm_zero (total : Nat) :
    parseTerm total "0".data = .error (.outOfBoundsError "0") := by
  refine parseTerm_single_oob (by decide) (v := 0) (by decide) ?_
  left
  decide

theorem resolvePages_zero (total : Nat) :
    resolvePages total "0".data = .error (.outOfBoundsError "0") := by
  rw [resolvePages_single (by decide)]
  exact parseParts_single_err (parseTerm_zero total)

theorem parseTerm_x (total : Nat) :
    parseTerm total "x".data = .error (.parseError "x") :=
  parseTerm_single_none (by decide) (by decide)

theorem resolvePages_x (total : Nat) :
    resolvePages total "x".data = .error (.parseError "x") := by
  rw [resolvePages_single (by decide)]
  exact parseParts_single_err (parseTerm_x total)

theorem negTerm_split (n : Nat) : splitOnChar '-' ('-' :: natStr n) = [[], natStr n] := by
  have h : splitOnChar '-' ('-' :: natStr n) = [] :: splitOnChar '-' (natStr n) := by
    simp [splitOnChar]
  rw [h, splitOnChar_no_sep (natStr_no_hyphen n)]

theorem parseTerm_negTerm (total n : Nat) :
    parseTerm total ('-' :: natStr n) =
      .error (.parseError (String.mk ('-' :: natStr n))) := by
  exact parseTerm_range_parse_error (List.mem_cons_self _ _) (negTerm_split n) rfl

theorem negTerm_no_comma (n : Nat) : ',' ∉ '-' :: natStr n := by
  rw [List.mem_cons]
  rintro (h | h)
  · exact absurd h (by decide)
  · exact natStr_no_comma n h

theorem negTerm_not_space (n : Nat) : ∀ c ∈ '-' :: natStr n, isPySpace c = false := by
  intro c hc
  rcases List.mem_cons.mp hc with rfl | hc
  · decide
  · exact natStr_not_space c hc

theorem resolvePages_negTerm (total n : Nat) :
    resolvePages total ('-' :: natStr n) =
      .error (.parseError (String.mk ('-' :: natStr n))) := by
  rw [resolvePages_single (negTerm_no_comma n)]
  refine parseParts_single_err ?_
  rw [stripChars_eq_self (negTerm_not_space n)]
  exact parseTerm_negTerm total n

theorem lowerChars_ne_all_of_head {l : List Char} {c : Char} {t : List Char}
    (hl : l = c :: t) (hc : lowerChar c ≠ 'a') : lowerChars l ≠ "all".data := by
  rw [hl]
  intro h
  unfold lowerChars at h
  rw [List.map_cons, show "all".data = ['a', 'l', 'l'] from rfl] at h
  injection h with h1 _
  exact hc h1

theorem lowerChars_natStr_ne_all (n : Nat) : lowerChars (natStr n) ≠ "all".data := by
  obtain ⟨c, t, hct⟩ := List.exists_cons_of_ne_nil (natStr_ne_nil n)
  obtain ⟨d, hd, hc⟩ := natStr_mem (c := c) (by rw [hct]; exact List.mem_cons_self _ _)
  refine lowerChars_ne_all_of_head hct ?_
  rw [hc, lowerChar_digitChar d hd]
  exact digitChar_ne_a d hd

theorem lowerChars_rangeTerm_ne_all (a b : Nat) :
    lowerChars (natStr a ++ '-' :: natStr b) ≠ "all".data := by
  obtain ⟨c, t, hct⟩ := List.exists_cons_of_ne_nil (natStr_ne_nil a)
  obtain ⟨d, hd, hc⟩ := natStr_mem (c := c) (by rw [hct]; exact List.mem_cons_self _ _)
  refine lowerChars_ne_all_of_head (t := t ++ '-' :: natStr b) (by rw [hct]; rfl) ?_
  rw [hc, lowerChar_digitChar d hd]
  exact digitChar_ne_a d hd

theorem lowerChars_negTerm_ne_all (n : Nat) :
    lowerChars ('-' :: natStr n) ≠ "all".data :=
  lowerChars_ne_all_of_head rfl (by decide)

theorem lowerAll_parse_error (total : Nat) {l : List Char}
    (h : lowerChars l = "all".data) :
    resolvePages total l = .error (.parseError (String.mk l)) := by
  have hlen : l.length = 3 := by
    have h2 := congrArg List.length h
    simp only [lowerChars, List.length_map] at h2
    rw [show ("all".data).length = 3 from rfl] at h2
    exact h2
  obtain ⟨c1, c2, c3, rfl⟩ := List.length_eq_three.mp hlen
  simp only [lowerChars, List.map_cons, List.map_nil] at h
  injection h with h1 h
  injection h with h2 h
  injection h with h3 _
  have hlow : ∀ c ∈ [c1, c2, c3], lowerChar c = 'a' ∨ lowerChar c = 'l' := by
    intro c hc
    rcases List.mem_cons.mp hc with rfl | hc
    · exact .inl h1
    rcases List.mem_cons.mp hc with rfl | hc
    · exact .inr h2
    rcases List.mem_cons.mp hc with rfl | hc
    · exact .inr h3
    · exact absurd hc (List.not_mem_nil c)
  have hnospace : ∀ c ∈ [c1, c2, c3], isPySpace c = false := by
    intro c hc
    rcases hb : isPySpace c with _ | _
    · rfl
    · exfalso
      have hlc : lowerChar c = c := lower_space hb
      rcases hlow c hc with ha | hl
      · rw [hlc] at ha
        subst ha
        exact absurd hb (by decide)
      · rw [hlc] at hl
        subst hl
        exact absurd hb (by decide)
  have hhyph : '-' ∉ [c1, c2, c3] := by
    intro hm
    rcases hlow '-' hm with ha | hl
    · exact absurd ha (by decide)
    · exact absurd hl (by decide)
  have hcomma : ',' ∉ [c1, c2, c3] := by
    intro hm
    rcases hlow ',' hm with ha | hl
    · exact absurd ha (by decide)
    · exact absurd hl (by decide)
  have hpy : pyIntChars [c1, c2, c3] = none := by
    have hstrip : stripChars [c1, c2, c3] = [c1, c2, c3] := stripChars_eq_self hnospace
    simp only [pyIntChars, hstrip]
    have hp : ¬ c1 = '+' := by
      intro hh
      rw [hh] at h1
      exact absurd h1 (by decide)
    have hm2 : ¬ c1 = '-' := by
      intro hh
      rw [hh] at h1
      exact absurd h1 (by decide)
    rw [if_neg hp, if_neg hm2]
    have hdv : digitVal c1 = none := by
      rcases hd : digitVal c1 with _ | d
      · rfl
      · exfalso
        have hlc : lowerChar c1 = c1 := digitVal_some_lower hd
        rw [hlc] at h1
        subst h1
        rw [show digitVal 'a' = none from by decide] at hd
        exact Option.noConfusion hd
    simp only [parseDigits, hdv]
    rfl
  rw [resolvePages_single hcomma]
  refine parseParts_single_err ?_
  rw [stripChars_eq_self hnospace]
  exact parseTerm_single_none hhyph hpy

theorem keepResolve_all_case {total : Nat} {s : String}
    (h : lowerChars s.data = "all".data) :
    keepResolve total s = .error (.parseError s) := by
  obtain ⟨l⟩ := s
  exact lowerAll_parse_error total h

theorem rotateResolve_some_all {total : Nat} {s : String}
    (hs : lowerChars s.data = "all".data) :
    rotateResolve total (some s) = .ok (Finset.Ico 0 (total : ℤ)) := by
  unfold rotateResolve
  dsimp only
  rw [if_pos hs]

theorem rotateCmd_ok {doc : List Page} {angle : ℤ} {pages : Option String} {sel : Finset ℤ}
    (ha : angle = 90 ∨ angle = 180 ∨ angle = 270)
    (h : rotateResolve doc.length pages = .ok sel) :
    rotateCmd doc angle pages = .ok (rotateOutput doc sel angle) := by
  unfold rotateCmd
  rw [if_pos ha, h]

theorem rotateCmd_err {doc : List Page} {angle : ℤ} {pages : Option String} {e : RangeError}
    (h : rotateResolve doc.length pages = .error e) :
    rotateCmd doc angle pages = .err 1 := by
  unfold rotateCmd
  split
  · rw [h]
  · rfl

theorem keepCmd_resolve_ok {doc : List Page} {pages : String} {sel : Finset ℤ}
    (h : keepResolve doc.length pages = .ok sel) (hne : sel ≠ ∅) :
    keepCmd doc pages = .ok (keepOutput doc sel) := by
  unfold keepCmd
  rw [h]
  dsimp only
  rw [if_neg hne]

theorem keepCmd_empty {doc : List Page} {pages : String}
    (h : keepResolve doc.length pages = .ok (∅ : Finset ℤ)) :
    keepCmd doc pages = .err 1 := by
  unfold keepCmd
  rw [h]
  dsimp only
  rw [if_pos rfl]

theorem keepCmd_err {doc : List Page} {pages : String} {e : RangeError}
    (h : keepResolve doc.length pages = .error e) :
    keepCmd doc pages = .err 1 := by
  unfold keepCmd
  rw [h]

theorem keep_sort_eq_filter_range {n : Nat} {sel : Finset ℤ}
    (hb : ∀ x ∈ sel, 0 ≤ x ∧ x < (n : ℤ)) :
    sel.sort (· ≤ ·) =
      ((List.range n).filter (fun (k : ℕ) => decide ((k : ℤ) ∈ sel))).map
        (fun (k : ℕ) => ((k : ℕ) : ℤ)) := by
  have hnodup : (((List.range n).filter (fun (k : ℕ) => decide ((k : ℤ) ∈ sel))).map
      (fun (k : ℕ) => ((k : ℕ) : ℤ))).Nodup := by
    refine List.Nodup.map ?_ (List.Nodup.filter _ (List.nodup_range n))
    exact fun a b hab => Nat.cast_injective hab
  have hsorted : (((List.range n).filter (fun (k : ℕ) => decide ((k : ℤ) ∈ sel))).map
      (fun (k : ℕ) => ((k : ℕ) : ℤ))).Sorted (· ≤ ·) := by
    refine List.Pairwise.map _ ?_ ((List.sorted_lt_range n).filter _)
    intro a b hab
    exact_mod_cast le_of_lt hab
  have htof : (((List.range n).filter (fun (k : ℕ) => decide ((k : ℤ) ∈ sel))).map
      (fun (k : ℕ) => ((k : ℕ) : ℤ))).toFinset = sel := by
    ext x
    rw [List.mem_toFinset, List.mem_map]
    constructor
    · rintro ⟨k, hk, rfl⟩
      rw [List.mem_filter] at hk
      exact of_decide_eq_true hk.2
    · intro hx
      obtain ⟨h0, hlt⟩ := hb x hx
      refine ⟨x.toNat, ?_, Int.toNat_of_nonneg h0⟩
      rw [List.mem_filter, List.mem_range]
      refine ⟨by omega, ?_⟩
      rw [decide_eq_true_eq, Int.toNat_of_nonneg h0]
      exact hx
  calc sel.sort (· ≤ ·)
      = (((List.range n).filter (fun (k : ℕ) => decide ((k : ℤ) ∈ sel))).map
          (fun (k : ℕ) => ((k : ℕ) : ℤ))).toFinset.sort (· ≤ ·) := by rw [htof]
    _ = ((List.range n).filter (fun (k : ℕ) => decide ((k : ℤ) ∈ sel))).map
          (fun (k : ℕ) => ((k : ℕ) : ℤ)) := (List.toFinset_sort (· ≤ ·) hnodup).mpr hsorted

theorem keepOutput_eq_filter {doc : List Page} {sel : Finset ℤ}
    (hb : ∀ x ∈ sel, 0 ≤ x ∧ x < (doc.length : ℤ)) :
    keepOutput doc sel =
      ((List.range doc.length).filter (fun (k : ℕ) => decide ((k : ℤ) ∈ sel))).map
        (fun (k : ℕ) => doc.getD k default) := by
  unfold keepOutput
  rw [keep_sort_eq_filter_range hb, List.map_map]
  rfl

/-- Claim C1, counterexample: the claim says the literal `"all"` resolves to
the full index range in the keep command as well, but `keep` has no `"all"`
special case, so with 3 pages the expression `"all"` fails with a parse error
instead of resolving to `{0, 1, 2}`. -/
theorem claim1_counterexample :
    keepResolve 3 "all" = .error (.parseError "all") ∧
    keepResolve 3 "all" ≠ .ok (Finset.Ico 0 (3 : ℤ)) := by
  constructor
  · decide
  · decide

/-- Claim C1, amended: for every `total_pages ≥ 1`, in the rotate command an
absent pages expression, or one equal to `"all"` in any letter case, resolves
to the full index range `{0, …, total_pages-1}`; the keep command has no
`"all"` handling and fails with a parse error on any letter case of `"all"`. -/
theorem claim1_amended (total : Nat) (htot : 1 ≤ total) :
    rotateResolve total none = .ok (Finset.Ico 0 (total : ℤ)) ∧
    (∀ s : String, lowerChars s.data = "all".data →
      rotateResolve total (some s) = .ok (Finset.Ico 0 (total : ℤ))) ∧
    (∀ s : String, lowerChars s.data = "all".data →
      keepResolve total s = .error (.parseError s)) := by
  refine ⟨rfl, ?_, ?_⟩
  · intro s hs
    exact rotateResolve_some_all hs
  · intro s hs
    exact keepResolve_all_case hs

theorem claim1_amended_witness :
    rotateResolve 3 none = .ok (Finset.Ico 0 (3 : ℤ)) ∧
    rotateResolve 3 (some "ALL") = .ok (Finset.Ico 0 (3 : ℤ)) ∧
    keepResolve 3 "ALL" = .error (.parseError "ALL") := by
  obtain ⟨h1, h2, h3⟩ := claim1_amended 3 (by decide)
  exact ⟨h1, h2 "ALL" (by decide), h3 "ALL" (by decide)⟩

/-- Claim C2: whenever resolution succeeds, in the rotate command or in the
keep command, every element of the resolved page set lies strictly within
`[0, total_pages)` — in particular a range whose start bound is past the end
of the document can only pass the `start_idx < 0 or end_idx >= total_pages`
check when it contributes no elements. -/
theorem claim2_resolved_in_bounds (total : Nat) :
    (∀ (pages : Option String) (sel : Finset ℤ), rotateResolve total pages = .ok sel →
      ∀ x ∈ sel, 0 ≤ x ∧ x < (total : ℤ)) ∧
    (∀ (pages : String) (sel : Finset ℤ), keepResolve total pages = .ok sel →
      ∀ x ∈ sel, 0 ≤ x ∧ x < (total : ℤ)) :=
  ⟨fun _ _ h => rotateResolve_bounds h, fun _ _ h => resolvePages_bounds h⟩

theorem claim2_witness : 0 ≤ (8 : ℤ) ∧ (8 : ℤ) < ((10 : ℕ) : ℤ) :=
  (claim2_resolved_in_bounds 10).2 "2,4-6,9" {1, 3, 4, 5, 8} (by decide) 8 (by decide)

/-- Claim C3: for all `1 ≤ a ≤ b ≤ total_pages`, the range term `"a-b"`
resolves, in both commands, to exactly `{a-1, …, b-1}`. -/
theorem claim3_range_term (total a b : Nat) (h1 : 1 ≤ a) (h2 : a ≤ b) (h3 : b ≤ total) :
    keepResolve total (String.mk (natStr a ++ '-' :: natStr b)) =
      .ok (Finset.Ico ((a : ℤ) - 1) (b : ℤ)) ∧
    rotateResolve total (some (String.mk (natStr a ++ '-' :: natStr b))) =
      .ok (Finset.Ico ((a : ℤ) - 1) (b : ℤ)) := by
  have hres : resolvePages total (natStr a ++ '-' :: natStr b) =
      .ok (Finset.Ico ((a : ℤ) - 1) (b : ℤ)) := by
    rw [resolvePages_natRange h1 h3, sub_add_cancel]
  refine ⟨hres, ?_⟩
  rw [rotateResolve_not_all (s := String.mk (natStr a ++ '-' :: natStr b))
    (by exact lowerChars_rangeTerm_ne_all a b)]
  exact hres

theorem claim3_witness :
    keepResolve 5 (String.mk (natStr 2 ++ '-' :: natStr 3)) =
      .ok (Finset.Ico ((2 : ℤ) - 1) (3 : ℤ)) ∧
    rotateResolve 5 (some (String.mk (natStr 2 ++ '-' :: natStr 3))) =
      .ok (Finset.Ico ((2 : ℤ) - 1) (3 : ℤ)) :=
  claim3_range_term 5 2 3 (by decide) (by decide) (by decide)

/-- Claim C4: a comma-separated expression resolves to the union of its
terms' resolutions with duplicates collapsed; every valid single term `"n"`
with `1 ≤ n ≤ total_pages` contributes exactly `{n-1}`; and concretely
`"2,4-6,9"` with 10 pages resolves to `{1,3,4,5,8}` in both commands. -/
theorem claim4_union (total : Nat) :
    (∀ n : Nat, 1 ≤ n → n ≤ total →
      parseTerm total (natStr n) = .ok {(n : ℤ) - 1}) ∧
    (∀ (e1 e2 : List Char) (s1 s2 : Finset ℤ),
      resolvePages total e1 = .ok s1 → resolvePages total e2 = .ok s2 →
      resolvePages total (e1 ++ ',' :: e2) = .ok (s1 ∪ s2)) ∧
    keepResolve 10 "2,4-6,9" = .ok ({1, 3, 4, 5, 8} : Finset ℤ) ∧
    rotateResolve 10 (some "2,4-6,9") = .ok ({1, 3, 4, 5, 8} : Finset ℤ) := by
  refine ⟨fun n hn1 hn2 => parseTerm_natSingle hn1 hn2, ?_, by decide, by decide⟩
  intro e1 e2 s1 s2 h1 h2
  unfold resolvePages at h1 h2 ⊢
  rw [splitOnChar_append]
  exact parseParts_append_ok h1 h2

theorem claim4_witness :
    parseTerm 10 (natStr 2) = .ok {(2 : ℤ) - 1} ∧
    resolvePages 10 ("2".data ++ ',' :: "4-6,9".data) =
      .ok (({1} : Finset ℤ) ∪ {3, 4, 5, 8}) ∧
    keepResolve 10 "2,4-6,9" = .ok ({1, 3, 4, 5, 8} : Finset ℤ) := by
  obtain ⟨h1, h2, h3, h4⟩ := claim4_union 10
  exact ⟨h1 2 (by decide) (by decide),
    h2 "2".data "4-6,9".data {1} {3, 4, 5, 8} (by decide) (by decide), h3⟩

/-- Claim C5, counterexample: the claim says every reversed range `"a-b"`
with `a > b` (both bounds parseable) resolves silently to no pages, but with
1 page the term `"3-2"` has `end_idx = 1 ≥ total_pages`, so both commands
fail with the out-of-bounds error instead of succeeding. -/
theorem claim5_counterexample :
    keepResolve 1 "3-2" = .error (.outOfBoundsError "3-2") ∧
    rotateResolve 1 (some "3-2") = .error (.outOfBoundsError "3-2") := by
  constructor
  · decide
  · decide

/-- Claim C5, amended: for every `total_pages ≥ 1` and all `a > b ≥ 0` with
`b ≤ total_pages`, the reversed range term `"a-b"` resolves successfully in
both commands and contributes no pages, rather than failing or swapping the
bounds; when `b > total_pages` the bounds check rejects the term instead. -/
theorem claim5_amended (total a b : Nat) (htot : 1 ≤ total) (hrev : b < a)
    (hb : b ≤ total) :
    keepResolve total (String.mk (natStr a ++ '-' :: natStr b)) = .ok (∅ : Finset ℤ) ∧
    rotateResolve total (some (String.mk (natStr a ++ '-' :: natStr b))) =
      .ok (∅ : Finset ℤ) := by
  have ha : 1 ≤ a := by omega
  have hres : resolvePages total (natStr a ++ '-' :: natStr b) = .ok (∅ : Finset ℤ) := by
    rw [resolvePages_natRange ha hb, Finset.Ico_eq_empty (by omega)]
  refine ⟨hres, ?_⟩
  rw [rotateResolve_not_all (s := String.mk (natStr a ++ '-' :: natStr b))
    (by exact lowerChars_rangeTerm_ne_all a b)]
  exact hres

theorem claim5_amended_witness :
    keepResolve 5 (String.mk (natStr 4 ++ '-' :: natStr 2)) = .ok (∅ : Finset ℤ) :=
  (claim5_amended 5 4 2 (by decide) (by decide) (by decide)).1

/-- Claim C6: for every `total_pages ≥ 1`, the single terms `"0"` and
`str(total_pages+1)` fail with the out-of-bounds error and the non-numeric
term `"x"` fails with a parse error, in both commands; in each case the
command run exits with status 1 (`CmdResult.err 1`, under which no output
file is opened or written). -/
theorem claim6_failures (total : Nat) (htot : 1 ≤ total) (doc : List Page)
    (hd : doc.length = total) :
    keepResolve total "0" = .error (.outOfBoundsError "0") ∧
    rotateResolve total (some "0") = .error (.outOfBoundsError "0") ∧
    keepResolve total (String.mk (natStr (total + 1))) =
      .error (.outOfBoundsError (String.mk (natStr (total + 1)))) ∧
    rotateResolve total (some (String.mk (natStr (total + 1)))) =
      .error (.outOfBoundsError (String.mk (natStr (total + 1)))) ∧
    keepResolve total "x" = .error (.parseError "x") ∧
    rotateResolve total (some "x") = .error (.parseError "x") ∧
    keepCmd doc "0" = .err 1 ∧
    rotateCmd doc 90 (some "0") = .err 1 ∧
    keepCmd doc (String.mk (natStr (total + 1))) = .err 1 ∧
    rotateCmd doc 90 (some (String.mk (natStr (total + 1)))) = .err 1 ∧
    keepCmd doc "x" = .err 1 ∧
    rotateCmd doc 90 (some "x") = .err 1 := by
  subst hd
  have hk0 : keepResolve doc.length "0" = .error (.outOfBoundsError "0") :=
    resolvePages_zero _
  have hr0 : rotateResolve doc.length (some "0") = .error (.outOfBoundsError "0") := by
    rw [rotateResolve_not_all (s := "0") (by decide)]
    exact resolvePages_zero _
  have hkh : keepResolve doc.length (String.mk (natStr (doc.length + 1))) =
      .error (.outOfBoundsError (String.mk (natStr (doc.length + 1)))) :=
    resolvePages_natSingle_oob_high _
  have hrh : rotateResolve doc.length (some (String.mk (natStr (doc.length + 1)))) =
      .error (.outOfBoundsError (String.mk (natStr (doc.length + 1)))) := by
    rw [rotateResolve_not_all (s := String.mk (natStr (doc.length + 1)))
      (by exact lowerChars_natStr_ne_all (doc.length + 1))]
    exact resolvePages_natSingle_oob_high _
  have hkx : keepResolve doc.length "x" = .error (.parseError "x") := resolvePages_x _
  have hrx : rotateResolve doc.length (some "x") = .error (.parseError "x") := by
    rw [rotateResolve_not_all (s := "x") (by decide)]
    exact resolvePages_x _
  exact ⟨hk0, hr0, hkh, hrh, hkx, hrx, keepCmd_err hk0, rotateCmd_err hr0,
    keepCmd_err hkh, rotateCmd_err hrh, keepCmd_err hkx, rotateCmd_err hrx⟩

theorem claim6_witness :
    keepResolve 1 "0" = .error (.outOfBoundsError "0") ∧ keepCmd exDoc1 "0" = .err 1 := by
  obtain ⟨h1, -, -, -, -, -, h7, -⟩ := claim6_failures 1 (by decide) exDoc1 (by decide)
  exact ⟨h1, h7⟩

/-- Claim C7: for every input document and successfully resolved selection,
the rotate command writes exactly one output page per input page in original
order, the selected positions rotated clockwise by the given angle and every
non-selected page unchanged. -/
theorem claim7_rotate_frame {doc : List Page} {angle : ℤ} {pages : Option String}
    {sel : Finset ℤ} (ha : angle = 90 ∨ angle = 180 ∨ angle = 270)
    (h : rotateResolve doc.length pages = .ok sel) :
    rotateCmd doc angle pages = .ok (rotateOutput doc sel angle) ∧
    (rotateOutput doc sel angle).length = doc.length ∧
    ∀ i : Fin doc.length,
      (rotateOutput doc sel angle)[(i : Nat)]? =
        some (if ((i : Nat) : ℤ) ∈ sel then rotatePage angle (doc.get i) else doc.get i) := by
  refine ⟨rotateCmd_ok ha h, rotateOutputAux_length sel angle doc 0, ?_⟩
  intro i
  show (rotateOutputAux sel angle 0 doc)[(i : Nat)]? = _
  rw [rotateOutputAux_getElem sel angle doc 0 (i : Nat), Nat.zero_add,
    List.getElem?_eq_getElem i.isLt, List.get_eq_getElem]
  rfl

theorem claim7_witness :
    rotateCmd exDoc3 180 (some "1,3") = .ok (rotateOutput exDoc3 ({0, 2} : Finset ℤ) 180) ∧
    rotateOutput exDoc3 ({0, 2} : Finset ℤ) 180 = [⟨180, 1⟩, ⟨0, 2⟩, ⟨180, 3⟩] :=
  ⟨(@claim7_rotate_frame exDoc3 180 (some "1,3") {0, 2}
      (Or.inr (Or.inl rfl)) (by decide)).1, by decide⟩

/-- Claim C8: for every input document and successfully resolved non-empty
selection, the keep command writes exactly the selected pages and no others,
in ascending page-number order (the resolved set is sorted), regardless of
the order the expression listed them — equivalently, the output equals the
input filtered to the selected positions. -/
theorem claim8_keep_ascending {doc : List Page} {pages : String} {sel : Finset ℤ}
    (h : keepResolve doc.length pages = .ok sel) (hne : sel ≠ ∅) :
    keepCmd doc pages = .ok (keepOutput doc sel) ∧
    keepOutput doc sel =
      ((List.range doc.length).filter (fun (k : ℕ) => decide ((k : ℤ) ∈ sel))).map
        (fun (k : ℕ) => doc.getD k default) :=
  ⟨keepCmd_resolve_ok h hne, keepOutput_eq_filter (resolvePages_bounds h)⟩

theorem claim8_witness :
    keepCmd exDoc5 "2-3" = .ok (keepOutput exDoc5 (Finset.Ico 1 (3 : ℤ))) ∧
    keepOutput exDoc5 (Finset.Ico 1 (3 : ℤ)) = [⟨0, 2⟩, ⟨0, 3⟩] := by
  obtain ⟨h1, h2⟩ := @claim8_keep_ascending exDoc5 "2-3"
    (Finset.Ico 1 (3 : ℤ)) (by decide) (by decide)
  refine ⟨h1, ?_⟩
  rw [h2]
  decide

/-- Claim C9: if a non-absent expression resolves to the empty set, the keep
command exits with status 1 before opening or writing any output; the empty
check is enforced only by keep — the rotate command with the same expression
proceeds and writes every page unrotated. -/
theorem claim9_empty_selection {doc : List Page} {pages : String} {angle : ℤ}
    (ha : angle = 90 ∨ angle = 180 ∨ angle = 270)
    (h : keepResolve doc.length pages = .ok (∅ : Finset ℤ)) :
    keepCmd doc pages = .err 1 ∧ rotateCmd doc angle (some pages) = .ok doc := by
  refine ⟨keepCmd_empty h, ?_⟩
  have hnall : lowerChars pages.data ≠ "all".data := by
    intro hall
    rw [keepResolve_all_case hall] at h
    cases h
  have hrr : rotateResolve doc.length (some pages) = .ok (∅ : Finset ℤ) := by
    rw [rotateResolve_not_all hnall]
    exact h
  rw [rotateCmd_ok ha hrr]
  unfold rotateOutput
  rw [rotateOutputAux_empty angle doc 0]

theorem claim9_witness :
    keepCmd exDoc1 "2-1" = .err 1 ∧ rotateCmd exDoc1 90 (some "2-1") = .ok exDoc1 :=
  @claim9_empty_selection exDoc1 "2-1" 90 (Or.inl rfl) (by decide)

/-- Claim C10: a term that is a negative integer literal such as `"-3"` is
never treated as a single page and never reported as out of bounds: it
contains a hyphen, so it is split as a range, the empty piece before the
hyphen fails integer parsing, and both commands abort with a parse error and
exit status 1. -/
theorem claim10_negative_term (total n : Nat) (doc : List Page) :
    keepResolve total (String.mk ('-' :: natStr n)) =
      .error (.parseError (String.mk ('-' :: natStr n))) ∧
    rotateResolve total (some (String.mk ('-' :: natStr n))) =
      .error (.parseError (String.mk ('-' :: natStr n))) ∧
    keepCmd doc (String.mk ('-' :: natStr n)) = .err 1 ∧
    rotateCmd doc 90 (some (String.mk ('-' :: natStr n))) = .err 1 := by
  refine ⟨resolvePages_negTerm total n, ?_,
    keepCmd_err (resolvePages_negTerm doc.length n), ?_⟩
  · rw [rotateResolve_not_all (s := String.mk ('-' :: natStr n))
      (by exact lowerChars_negTerm_ne_all n)]
    exact resolvePages_negTerm total n
  · have hre : rotateResolve doc.length (some (String.mk ('-' :: natStr n))) =
        .error (.parseError (String.mk ('-' :: natStr n))) := by
      rw [rotateResolve_not_all (s := String.mk ('-' :: natStr n))
        (by exact lowerChars_negTerm_ne_all n)]
      exact resolvePages_negTerm doc.length n
    exact rotateCmd_err hre
